import Mathlib

/-!
Shallow embedding of the bulk username verification pipeline of
RblNameValidator (src/server/routes.ts, src/server/storage.ts and the
shared zod schema), together with theorems settling the frozen claims
about the Syntax Validator, the Availability Resolver, the Rate Limiter,
the Bulk Orchestrator and the History Store.
-/

namespace RblNameValidator

/-! ## Syntax Validator (shared schema `usernameValidationSchema`)

The zod chain is
`z.string().min(3).max(20).regex(/^[a-zA-Z0-9_]+$/)
  .refine(val => !/^_|_$/.test(val)).refine(val => !/__/.test(val))`;
parsing succeeds exactly when every rule passes.  There is no `.trim()`
in the chain: the raw string is checked as given. -/

/-- Character class of the regex `[a-zA-Z0-9_]`.  `Char.isAlphanum` is
ASCII-only in Lean, matching the regex exactly. -/
def isAllowedChar (c : Char) : Bool :=
  c.isAlphanum || c = '_'

/-- Truth of the regex `/__/`: some two consecutive characters are both
underscores. -/
def hasConsecutiveUnderscores : List Char → Bool
  | [] => false
  | [_] => false
  | a :: b :: rest => (a = '_' && b = '_') || hasConsecutiveUnderscores (b :: rest)

/-- Success of `usernameValidationSchema.parse` on a raw username string:
length in [3,20], all characters in `[a-zA-Z0-9_]` (the anchored regex
`/^[a-zA-Z0-9_]+$/`; non-emptiness is subsumed by the minimum length),
no leading or trailing underscore (`/^_|_$/` fails), and no two
consecutive underscores (`/__/` fails). -/
def usernameValidationSchema (s : String) : Bool :=
  let cs := s.toList
  decide (3 ≤ cs.length) && decide (cs.length ≤ 20)
    && cs.all isAllowedChar
    && !(cs.head? = some '_' || cs.getLast? = some '_')
    && !hasConsecutiveUnderscores cs

/-! ## Availability Resolver (routes.ts `getRobloxUsernameDetails`,
`fallbackUsernameCheck`, `checkRobloxUsername`)

The two outbound endpoints are modelled by their observable behaviour for
one request; the resolver is a pure function of that behaviour. -/

/-- Observable outcome of the primary endpoint call in
`getRobloxUsernameDetails`: a thrown fetch/abort error, a non-2xx status,
a non-JSON content type, a JSON parse failure, a JSON body without a
`code` field, or a JSON body with a numeric `code` and optional
`message`. -/
inductive PrimaryResult where
  | netError : PrimaryResult
  | httpError : PrimaryResult
  | nonJson : PrimaryResult
  | parseError : PrimaryResult
  | noCode : PrimaryResult
  | code (c : Int) (msg : Option String) : PrimaryResult
deriving Repr, DecidableEq

/-- Observable outcome of the fallback endpoint call in
`fallbackUsernameCheck`: any failure (non-2xx, network error, timeout,
parse error — all reach the same catch block), or a JSON body whose
optional `data` field holds a list of matched users. -/
inductive FallbackResult where
  | failure : FallbackResult
  | success (data : Option (List String)) : FallbackResult
deriving Repr, DecidableEq

/-- Verdict shape returned by the resolver:
`{ isAvailable: boolean; status: string; message?: string }`. -/
structure Verdict where
  isAvailable : Bool
  status : String
  message : Option String
deriving Repr, DecidableEq

/-- JavaScript `m || d` on an optional string field: the default is used
when the field is absent or the empty string (falsy). -/
def jsOr (m : Option String) (d : String) : String :=
  match m with
  | none => d
  | some s => if s = "" then d else s

/-- Embeds `fallbackUsernameCheck`: on any failure return the terminal
error verdict; on success compute
`isAvailable = !data.data || data.data.length === 0` and build the
available/taken verdict. -/
def fallbackUsernameCheck (fb : FallbackResult) : Verdict :=
  match fb with
  | .failure =>
      ⟨false, "error", some "Could not verify username availability at this time"⟩
  | .success data =>
      let isAvailable : Bool :=
        match data with
        | none => true
        | some l => l.isEmpty
      ⟨isAvailable,
       if isAvailable then "available" else "taken",
       if isAvailable then none else some "Username is already taken"⟩

/-- Embeds `getRobloxUsernameDetails`, additionally counting how many
times the fallback endpoint is invoked (0 or 1).  Every primary outcome
other than a JSON body carrying a `code` field falls through to
`fallbackUsernameCheck`; a `code` is mapped by the switch statement. -/
def getRobloxUsernameDetailsCounted (pr : PrimaryResult) (fb : FallbackResult) :
    Verdict × Nat :=
  match pr with
  | .netError => (fallbackUsernameCheck fb, 1)
  | .httpError => (fallbackUsernameCheck fb, 1)
  | .nonJson => (fallbackUsernameCheck fb, 1)
  | .parseError => (fallbackUsernameCheck fb, 1)
  | .noCode => (fallbackUsernameCheck fb, 1)
  | .code c msg =>
      if c = 0 then (⟨true, "available", none⟩, 0)
      else if c = 1 then (⟨false, "taken", msg⟩, 0)
      else if c = 2 then
        (⟨false, "censored", some (jsOr msg "Username contains inappropriate content")⟩, 0)
      else if c = 10 then
        (⟨false, "too_short", some (jsOr msg "Username is too short")⟩, 0)
      else if c = 11 then
        (⟨false, "too_long", some (jsOr msg "Username is too long")⟩, 0)
      else if c = 12 then
        (⟨false, "invalid_characters", some (jsOr msg "Username contains invalid characters")⟩, 0)
      else (⟨false, "unknown", some (jsOr msg "Unknown validation error")⟩, 0)

/-- The resolver's verdict, forgetting the instrumentation. -/
def getRobloxUsernameDetails (pr : PrimaryResult) (fb : FallbackResult) : Verdict :=
  (getRobloxUsernameDetailsCounted pr fb).1

/-- Whether the primary attempt failed (every constructor except a JSON
body with a `code` field). -/
def isPrimaryFailure (pr : PrimaryResult) : Bool :=
  match pr with
  | .code _ _ => false
  | _ => true

/-- Embeds `checkRobloxUsername`: resolve and keep only the boolean. -/
def checkRobloxUsername (pr : PrimaryResult) (fb : FallbackResult) : Bool :=
  (getRobloxUsernameDetails pr fb).isAvailable

/-! ## History Store (storage.ts `MemStorage`)

Time (`new Date()`) is an explicit clock argument.  The `Map<number,
UsernameCheck>` keyed by consecutive ids, iterated with
`Array.from(...values())`, is an insertion-ordered list of records. -/

/-- Persisted record shape `UsernameCheck` of the shared schema:
`{id, username, isAvailable, checkedAt}`. -/
structure UsernameCheck where
  id : Nat
  username : String
  isAvailable : Bool
  checkedAt : Nat
deriving Repr, DecidableEq

/-- State of `MemStorage` relevant to username checks: the
`usernameChecks` map in insertion order and the `currentCheckId`
counter. -/
structure MemStorage where
  usernameChecks : List UsernameCheck
  currentCheckId : Nat
deriving Repr, DecidableEq

/-- The freshly constructed `MemStorage`. -/
def MemStorage.empty : MemStorage := ⟨[], 1⟩

/-- Embeds `MemStorage.saveUsernameCheck`: take the next id, stamp the
record with the persistence-time clock, insert it, and return it. -/
def saveUsernameCheck (st : MemStorage) (now : Nat) (username : String)
    (isAvailable : Bool) : UsernameCheck × MemStorage :=
  let check : UsernameCheck := ⟨st.currentCheckId, username, isAvailable, now⟩
  (check, ⟨st.usernameChecks ++ [check], st.currentCheckId + 1⟩)

/-- Aggregate shape returned by `MemStorage.getUsageStats`. -/
structure UsageStats where
  totalChecks : Nat
  availableCount : Nat
  takenCount : Nat
  avgResponseTime : ℚ
deriving Repr, DecidableEq

/-- Embeds `MemStorage.getUsageStats`: count all records, those with
`isAvailable` true, those with it false, and return the hard-coded mock
average response time 0.8. -/
def getUsageStats (st : MemStorage) : UsageStats :=
  let checks := st.usernameChecks
  ⟨checks.length,
   (checks.filter (fun c => c.isAvailable)).length,
   (checks.filter (fun c => !c.isAvailable)).length,
   0.8⟩

/-- Modelled from the spec: `storage.clearUsernameChecks()` is invoked by
the `DELETE /api/username/recent` handler in routes.ts, but its
implementation is missing from the source files (the `MemStorage` in
storage.ts does not define it).  The spec's clear contract says the
operation "empties the History Store entirely", so it is modelled as
emptying the `usernameChecks` map. -/
def clearUsernameChecks (st : MemStorage) : MemStorage :=
  { st with usernameChecks := [] }

/-- Embeds the `DELETE /api/username/recent` handler: clear the store and
respond with the confirmation message. -/
def deleteRecentHandler (st : MemStorage) : String × MemStorage :=
  ("History cleared successfully", clearUsernameChecks st)

/-! ## Rate Limiter (routes.ts `checkRateLimit`)

`rateLimitStore : Map<string, {count, resetTime}>` is an association
list with JavaScript `Map.get`/`Map.set` semantics; `Date.now()` is an
explicit argument in milliseconds. -/

/-- One entry of the rate-limit map: `{count, resetTime}`. -/
structure RateLimitEntry where
  count : Nat
  resetTime : Nat
deriving Repr, DecidableEq

/-- The per-client rate-limit map. -/
def RateLimitStore := List (String × RateLimitEntry)

/-- `Map.get`: the entry for a key, if present. -/
def rlGet : RateLimitStore → String → Option RateLimitEntry
  | [], _ => none
  | (k, e) :: rest, ip => if k = ip then some e else rlGet rest ip

/-- `Map.set`: replace the entry for a key, or append a new one. -/
def rlSet : RateLimitStore → String → RateLimitEntry → RateLimitStore
  | [], ip, e => [(ip, e)]
  | (k, e0) :: rest, ip, e =>
      if k = ip then (ip, e) :: rest else (k, e0) :: rlSet rest ip e

/-- `RATE_LIMIT_WINDOW = 60 * 1000` milliseconds. -/
def RATE_LIMIT_WINDOW : Nat := 60 * 1000

/-- `RATE_LIMIT_MAX = 10` requests per window. -/
def RATE_LIMIT_MAX : Nat := 10

/-- Embeds `checkRateLimit`: with no entry for the client, or past the
window's reset time, start a fresh window with count 1; with a full
window (`count >= RATE_LIMIT_MAX`) refuse; otherwise increment the
count (the source mutates the entry inside the map in place). -/
def checkRateLimit (store : RateLimitStore) (ip : String) (now : Nat) :
    Bool × RateLimitStore :=
  match rlGet store ip with
  | none => (true, rlSet store ip ⟨1, now + RATE_LIMIT_WINDOW⟩)
  | some userLimit =>
      if now > userLimit.resetTime then
        (true, rlSet store ip ⟨1, now + RATE_LIMIT_WINDOW⟩)
      else if userLimit.count ≥ RATE_LIMIT_MAX then
        (false, store)
      else
        (true, rlSet store ip ⟨userLimit.count + 1, userLimit.resetTime⟩)

/-- A sequence of `checkRateLimit` calls for one client at the given
times, collecting the verdicts and threading the map. -/
def checkRateLimitSeq (ip : String) : List Nat → RateLimitStore → List Bool × RateLimitStore
  | [], store => ([], store)
  | t :: ts, store =>
      let r := checkRateLimit store ip t
      let rest := checkRateLimitSeq ip ts r.2
      (r.1 :: rest.1, rest.2)

/-! ## Bulk Orchestrator (routes.ts `POST /api/username/bulk-check` handler)

The per-username behaviour of the two outbound endpoints is an
environment `env : String → PrimaryResult × FallbackResult`.  Each
iteration of the sequential loop advances the clock by one tick (the
200ms pacing delay); only the relative order of timestamps matters. -/

/-- Shape of one element of the handler's `results` array.  The source
pushes plain object literals; a key that a literal omits is `none`
(reading it in JavaScript yields `undefined`). -/
structure BulkEntry where
  username : String
  isAvailable : Option Bool
  status : Option String
  message : Option String
  error : Option String
  timestamp : Nat
deriving Repr, DecidableEq

/-- The `validatedUsernames` array: usernames on which
`usernameValidationSchema.parse` succeeds, in input order. -/
def validatedUsernames (usernames : List String) : List String :=
  usernames.filter (fun u => usernameValidationSchema u)

/-- The `validationErrors` array: usernames on which the schema parse
throws, in input order, each paired with the fixed error text. -/
def validationErrors (usernames : List String) : List (String × String) :=
  (usernames.filter (fun u => !usernameValidationSchema u)).map
    (fun u => (u, "Invalid username format"))

/-- Entry pushed for one validation error:
`{username, isAvailable: null, error, timestamp: new Date()}`. -/
def invalidEntry (now : Nat) (p : String × String) : BulkEntry :=
  ⟨p.1, none, none, none, some p.2, now⟩

/-- The sequential loop over `validatedUsernames`: resolve via
`checkRobloxUsername` (which, being total — see the resolver claims —
never reaches the handler's defensive catch branch), persist the boolean
through `saveUsernameCheck`, and push
`{username, isAvailable, timestamp: check.checkedAt}`.  Returns the
pushed entries, the threaded store, the clock after the loop, and the
number of resolver invocations made. -/
def processValidated (env : String → PrimaryResult × FallbackResult) :
    List String → MemStorage → Nat → List BulkEntry × MemStorage × Nat × Nat
  | [], st, now => ([], st, now, 0)
  | u :: rest, st, now =>
      let verdict := checkRobloxUsername (env u).1 (env u).2
      let saved := saveUsernameCheck st now u verdict
      let entry : BulkEntry := ⟨u, some verdict, none, none, none, saved.1.checkedAt⟩
      let tail := processValidated env rest saved.2 (now + 1)
      (entry :: tail.1, tail.2.1, tail.2.2.1, tail.2.2.2 + 1)

/-- The handler's `summary` object. -/
structure BulkSummary where
  total : Nat
  processed : Nat
  errors : Nat
  available : Nat
  taken : Nat
deriving Repr, DecidableEq

/-- The handler's JSON response body: `{results, summary}`. -/
structure BulkResponse where
  results : List BulkEntry
  summary : BulkSummary
deriving Repr, DecidableEq

/-- Embeds the body of the bulk-check handler after rate limiting and
payload parsing: partition the usernames, seed `results` with the
invalid-format entries, run the sequential resolution loop, and compute
the summary counters from `usernames`, `validatedUsernames`,
`validationErrors` and `results`.  Also returns the updated store and
the number of resolver invocations. -/
def bulkCheck (env : String → PrimaryResult × FallbackResult)
    (usernames : List String) (st : MemStorage) (now : Nat) :
    BulkResponse × MemStorage × Nat :=
  let valid := validatedUsernames usernames
  let errs := validationErrors usernames
  let loop := processValidated env valid st now
  let results := errs.map (invalidEntry now) ++ loop.1
  (⟨results,
    ⟨usernames.length,
     valid.length,
     errs.length,
     (results.filter (fun r => r.isAvailable = some true)).length,
     (results.filter (fun r => r.isAvailable = some false)).length⟩⟩,
   loop.2.1, loop.2.2.2)

/-- HTTP-level outcome of the bulk-check route. -/
inductive BulkHttpResponse where
  | rateLimited (message : String) : BulkHttpResponse
  | ok (resp : BulkResponse) : BulkHttpResponse
deriving Repr, DecidableEq

/-- Embeds the bulk-check route including its rate-limit gate: a refused
client gets the 429 message and no resolver call is made; otherwise the
handler body runs.  Returns the response, the rate-limit map, the store
and the resolver-invocation count. -/
def bulkCheckRoute (env : String → PrimaryResult × FallbackResult)
    (rl : RateLimitStore) (ip : String) (nowMs : Nat)
    (usernames : List String) (st : MemStorage) (now : Nat) :
    BulkHttpResponse × RateLimitStore × MemStorage × Nat :=
  let gate := checkRateLimit rl ip nowMs
  if gate.1 then
    let r := bulkCheck env usernames st now
    (.ok r.1, gate.2, r.2.1, r.2.2)
  else
    (.rateLimited "Rate limit exceeded. Please wait before making more requests.",
     gate.2, st, 0)

/-! ## Spec-side definitions used to compare code and spec text -/

/-- Whitespace trimming at the character level: the effect of trimming a
string on its character sequence (drop leading and trailing whitespace).
Used to state what the spec's "trim whitespace" rule would produce. -/
def trimmedChars (l : List Char) : List Char :=
  ((l.dropWhile Char.isWhitespace).reverse.dropWhile Char.isWhitespace).reverse

/-- Restatement of the spec's validation rules 2–5 (length within [3,20],
characters restricted to ASCII letters, digits and underscore, no
leading or trailing underscore, no two consecutive underscores), applied
to the raw string itself — i.e. without the spec's rule 1 trimming. -/
def specValidationRules (s : String) : Prop :=
  3 ≤ s.toList.length ∧ s.toList.length ≤ 20 ∧
    (∀ c ∈ s.toList, c.isAlphanum = true ∨ c = '_') ∧
    s.toList.head? ≠ some '_' ∧ s.toList.getLast? ≠ some '_' ∧
    ¬ ∃ i, s.toList.get? i = some '_' ∧ s.toList.get? (i + 1) = some '_'

end RblNameValidator

namespace RblNameValidator

/-! ## Helper lemmas -/

/-- The regex `/__/` matches exactly when some position holds an
underscore immediately followed by another. -/
theorem hasConsecutiveUnderscores_iff (l : List Char) :
    hasConsecutiveUnderscores l = true ↔
      ∃ i, l.get? i = some '_' ∧ l.get? (i + 1) = some '_' := by
  induction l with
  | nil =>
      simp only [hasConsecutiveUnderscores, List.get?_nil]
      simp
  | cons a t ih =>
      cases t with
      | nil =>
          simp only [hasConsecutiveUnderscores]
          constructor
          · intro h; exact absurd h (by simp)
          · rintro ⟨i, -, h2⟩
            cases i <;> simp at h2
      | cons b t' =>
          constructor
          · intro h
            simp only [hasConsecutiveUnderscores, Bool.or_eq_true, Bool.and_eq_true,
              decide_eq_true_iff] at h
            rcases h with ⟨ha, hb⟩ | h
            · exact ⟨0, by simp [ha], by simp [hb]⟩
            · obtain ⟨i, h1, h2⟩ := ih.mp h
              exact ⟨i + 1, by simpa using h1, by simpa using h2⟩
          · rintro ⟨i, h1, h2⟩
            cases i with
            | zero =>
                simp only [List.get?_cons_zero, Option.some.injEq] at h1
                simp only [List.get?_cons_succ, List.get?_cons_zero, Option.some.injEq] at h2
                simp [hasConsecutiveUnderscores, h1, h2]
            | succ j =>
                simp only [List.get?_cons_succ] at h1 h2
                have h3 := ih.mpr ⟨j, h1, h2⟩
                simp [hasConsecutiveUnderscores, h3]

/-- Unfolding of the validator into its five rule conjuncts. -/
theorem usernameValidationSchema_eq_true_iff (s : String) :
    usernameValidationSchema s = true ↔
      3 ≤ s.toList.length ∧ s.toList.length ≤ 20 ∧
        (∀ c ∈ s.toList, isAllowedChar c = true) ∧
        ¬(s.toList.head? = some '_' ∨ s.toList.getLast? = some '_') ∧
        hasConsecutiveUnderscores s.toList = false := by
  simp only [usernameValidationSchema, Bool.and_eq_true, decide_eq_true_iff,
    List.all_eq_true, Bool.not_eq_true', Bool.or_eq_false_iff, decide_eq_false_iff_not]
  tauto

/-- `Map.set` followed by `Map.get` on the same key returns the new
entry. -/
theorem rlGet_rlSet (store : RateLimitStore) (ip : String) (e : RateLimitEntry) :
    rlGet (rlSet store ip e) ip = some e := by
  induction store with
  | nil => simp [rlSet, rlGet]
  | cons kv rest ih =>
      obtain ⟨k, e0⟩ := kv
      by_cases h : k = ip
      · simp [rlSet, rlGet, h]
      · simp [rlSet, rlGet, h, ih]

/-- A refused `checkRateLimit` call leaves the map unchanged. -/
theorem checkRateLimit_false_store (store : RateLimitStore) (ip : String) (now : Nat)
    (h : (checkRateLimit store ip now).1 = false) :
    (checkRateLimit store ip now).2 = store := by
  simp only [checkRateLimit] at h ⊢
  cases hg : rlGet store ip with
  | none => rw [hg] at h; simp at h
  | some e =>
      rw [hg] at h
      by_cases h1 : now > e.resetTime
      · simp [h1] at h
      · by_cases h2 : e.count ≥ RATE_LIMIT_MAX
        · simp [h1, h2]
        · simp [h1, h2] at h

/-- Filling a window: starting from an entry `(c, r)` for the client,
a run of calls at times within the window all succeed and leave the
entry at `(c + number of calls, r)`, as long as the cap is not hit. -/
theorem checkRateLimit_window_fill (ip : String) (r : Nat) :
    ∀ (ts : List Nat) (store : RateLimitStore) (c : Nat),
      rlGet store ip = some ⟨c, r⟩ → (∀ t ∈ ts, t ≤ r) →
      c + ts.length ≤ RATE_LIMIT_MAX →
      (checkRateLimitSeq ip ts store).1 = List.replicate ts.length true ∧
        rlGet (checkRateLimitSeq ip ts store).2 ip = some ⟨c + ts.length, r⟩ := by
  intro ts
  induction ts with
  | nil =>
      intro store c hget _ _
      exact ⟨rfl, by simpa using hget⟩
  | cons t ts ih =>
      intro store c hget hle hcap
      have hm : RATE_LIMIT_MAX = 10 := rfl
      rw [hm] at hcap
      simp only [List.length_cons] at hcap
      have ht : t ≤ r := hle t (by simp)
      have hstep : checkRateLimit store ip t = (true, rlSet store ip ⟨c + 1, r⟩) := by
        simp only [checkRateLimit, hget]
        rw [if_neg (by omega), if_neg (by rw [hm]; simp; omega)]
      have hnext : rlGet (rlSet store ip ⟨c + 1, r⟩) ip = some ⟨c + 1, r⟩ :=
        rlGet_rlSet store ip _
      obtain ⟨ih1, ih2⟩ := ih (rlSet store ip ⟨c + 1, r⟩) (c + 1) hnext
        (fun u hu => hle u (by simp [hu])) (by rw [hm]; omega)
      constructor
      · simp only [checkRateLimitSeq, hstep, ih1]
        simp [List.replicate]
      · simp only [checkRateLimitSeq, hstep]
        have harith : c + 1 + ts.length = c + (ts.length + 1) := by omega
        rw [harith] at ih2
        simpa using ih2

/-! ## Claim C1 -/

/-- C1: the DELETE /api/username/recent handler empties the History
Store via the clear operation, returns the confirmation message, and a
subsequent stats query reports `totalChecks = 0`.  (The clear operation
itself is modelled from the spec, see `clearUsernameChecks`.) -/
theorem claim_C1_delete_clears_store (st : MemStorage) :
    deleteRecentHandler st = ("History cleared successfully", clearUsernameChecks st) ∧
      (clearUsernameChecks st).usernameChecks = [] ∧
      (getUsageStats (deleteRecentHandler st).2).totalChecks = 0 := by
  exact ⟨rfl, rfl, rfl⟩

/-! ## Claim C2 -/

/-- C2 counterexample: the Syntax Validator does not trim.  The raw
string `" abc "` trims to `"abc"`, which satisfies every rule
(`usernameValidationSchema "abc" = true`), yet the validator rejects the
raw string, contradicting the claim that any raw string with a valid
non-empty trimmed form is accepted. -/
theorem claim_C2_trim_counterexample :
    trimmedChars " abc ".toList = "abc".toList ∧
      usernameValidationSchema "abc" = true ∧
      usernameValidationSchema " abc " = false := by
  exact ⟨by decide, by decide, by decide⟩

/-- C2 amended: the Syntax Validator applies no trimming; a raw string
is accepted exactly when the string itself satisfies the spec's length,
character and underscore rules (rules 2–5), so a string with surrounding
whitespace is rejected by the character rule even when its trimmed form
is valid. -/
theorem claim_C2_no_trim_refinement (s : String) :
    usernameValidationSchema s = true ↔ specValidationRules s := by
  rw [usernameValidationSchema_eq_true_iff]
  unfold specValidationRules
  constructor
  · rintro ⟨h1, h2, h3, h4, h5⟩
    refine ⟨h1, h2, ?_, ?_, ?_, ?_⟩
    · intro c hc
      have := h3 c hc
      simpa [isAllowedChar, Bool.or_eq_true, decide_eq_true_iff] using this
    · exact fun h => h4 (Or.inl h)
    · exact fun h => h4 (Or.inr h)
    · intro h
      rw [← hasConsecutiveUnderscores_iff] at h
      rw [h5] at h
      exact absurd h (by simp)
  · rintro ⟨h1, h2, h3, h4, h5, h6⟩
    refine ⟨h1, h2, ?_, ?_, ?_⟩
    · intro c hc
      have := h3 c hc
      simpa [isAllowedChar, Bool.or_eq_true, decide_eq_true_iff] using this
    · rintro (h | h)
      · exact h4 h
      · exact h5 h
    · rw [← Bool.not_eq_true, hasConsecutiveUnderscores_iff]
      exact h6

/-! ## Claim C8 -/

/-- C8: the Syntax Validator rejects every username shorter than 3 or
longer than 20 characters, every username with a character outside
`[A-Za-z0-9_]`, every username starting or ending with an underscore,
and every username containing two consecutive underscores; `"_abc"`,
`"abc_"` and `"ab__c"` are invalid while `"abc_123"` is valid. -/
theorem claim_C8_validator_rules :
    (∀ s : String, s.toList.length < 3 → usernameValidationSchema s = false) ∧
      (∀ s : String, 20 < s.toList.length → usernameValidationSchema s = false) ∧
      (∀ s : String, ∀ c ∈ s.toList, isAllowedChar c = false →
        usernameValidationSchema s = false) ∧
      (∀ s : String, s.toList.head? = some '_' ∨ s.toList.getLast? = some '_' →
        usernameValidationSchema s = false) ∧
      (∀ s : String, (∃ i, s.toList.get? i = some '_' ∧ s.toList.get? (i + 1) = some '_') →
        usernameValidationSchema s = false) ∧
      usernameValidationSchema "_abc" = false ∧
      usernameValidationSchema "abc_" = false ∧
      usernameValidationSchema "ab__c" = false ∧
      usernameValidationSchema "abc_123" = true := by
  refine ⟨?_, ?_, ?_, ?_, ?_, by decide, by decide, by decide, by decide⟩
  · intro s h
    rw [Bool.eq_false_iff]
    intro hv
    rw [usernameValidationSchema_eq_true_iff] at hv
    omega
  · intro s h
    rw [Bool.eq_false_iff]
    intro hv
    rw [usernameValidationSchema_eq_true_iff] at hv
    omega
  · intro s c hc hbad
    rw [Bool.eq_false_iff]
    intro hv
    rw [usernameValidationSchema_eq_true_iff] at hv
    have := hv.2.2.1 c hc
    rw [hbad] at this
    exact absurd this (by simp)
  · intro s h
    rw [Bool.eq_false_iff]
    intro hv
    rw [usernameValidationSchema_eq_true_iff] at hv
    exact hv.2.2.2.1 h
  · intro s h
    rw [Bool.eq_false_iff]
    intro hv
    rw [usernameValidationSchema_eq_true_iff] at hv
    rw [← hasConsecutiveUnderscores_iff] at h
    rw [hv.2.2.2.2] at h
    exact absurd h (by simp)

/-- C8 witness: the theorem applied at concrete inputs, discharging its
hypotheses. -/
theorem claim_C8_witness :
    usernameValidationSchema "ab" = false ∧ usernameValidationSchema "abcdefghijklmnopqrstu" = false := by
  exact ⟨claim_C8_validator_rules.1 "ab" (by decide),
    claim_C8_validator_rules.2.1 "abcdefghijklmnopqrstu" (by decide)⟩

/-! ## Claim C10 -/

/-- C10: for every History Store state, `getUsageStats` reports
`totalChecks` equal to the number of persisted records, every record is
counted in exactly one of the available/taken buckets
(`totalChecks = availableCount + takenCount`), and `avgResponseTime` is
the constant 0.8 regardless of contents. -/
theorem claim_C10_stats_invariant (st : MemStorage) :
    (getUsageStats st).totalChecks = st.usernameChecks.length ∧
      (getUsageStats st).totalChecks =
        (getUsageStats st).availableCount + (getUsageStats st).takenCount ∧
      (getUsageStats st).avgResponseTime = 0.8 := by
  refine ⟨rfl, ?_, rfl⟩
  simp only [getUsageStats]
  exact List.length_eq_length_filter_add _

/-- The entries pushed by the sequential loop carry the validated
usernames in order. -/
theorem processValidated_usernames (env : String → PrimaryResult × FallbackResult)
    (l : List String) (st : MemStorage) (now : Nat) :
    (processValidated env l st now).1.map (fun e => e.username) = l := by
  induction l generalizing st now with
  | nil => rfl
  | cons u rest ih => simp [processValidated, ih]

/-- The sequential loop pushes one entry per validated username. -/
theorem processValidated_length (env : String → PrimaryResult × FallbackResult)
    (l : List String) (st : MemStorage) (now : Nat) :
    (processValidated env l st now).1.length = l.length := by
  induction l generalizing st now with
  | nil => rfl
  | cons u rest ih => simp [processValidated, ih]

/-- The sequential loop invokes the resolver once per validated
username. -/
theorem processValidated_calls (env : String → PrimaryResult × FallbackResult)
    (l : List String) (st : MemStorage) (now : Nat) :
    (processValidated env l st now).2.2.2 = l.length := by
  induction l generalizing st now with
  | nil => rfl
  | cons u rest ih => simp [processValidated, ih]

/-- The sequential loop appends exactly one record per validated
username to the store, carrying that username and the resolver's
availability boolean. -/
theorem processValidated_records (env : String → PrimaryResult × FallbackResult)
    (l : List String) (st : MemStorage) (now : Nat) :
    (processValidated env l st now).2.1.usernameChecks.map
        (fun c => (c.username, c.isAvailable)) =
      st.usernameChecks.map (fun c => (c.username, c.isAvailable)) ++
        l.map (fun u => (u, checkRobloxUsername (env u).1 (env u).2)) := by
  induction l generalizing st now with
  | nil => simp [processValidated]
  | cons u rest ih =>
      simp only [processValidated, List.map_cons]
      rw [ih]
      simp [saveUsernameCheck]

/-- Every entry pushed by the sequential loop records the resolver's
availability boolean for its username. -/
theorem processValidated_isAvailable (env : String → PrimaryResult × FallbackResult)
    (l : List String) (st : MemStorage) (now : Nat) :
    ∀ e ∈ (processValidated env l st now).1,
      e.isAvailable = some (checkRobloxUsername (env e.username).1 (env e.username).2) := by
  induction l generalizing st now with
  | nil => intro e he; exact absurd he (by simp [processValidated])
  | cons u rest ih =>
      intro e he
      simp only [processValidated, List.mem_cons] at he
      rcases he with he | he
      · subst he; rfl
      · exact ih _ _ e he

/-! ## Claim C4 -/

/-- C4: `checkRateLimit` creates a fresh window (count 1, reset at
now + 60s) for an unknown client or an elapsed window and allows the
call; below the cap it increments the count and allows; at the cap it
refuses, so the 11th call of a client within one 60-second window is
refused while the first ten are allowed; and a refused bulk request is
answered with the 429 message before any resolver call is made. -/
theorem claim_C4_rate_limiter (store : RateLimitStore) (ip : String) (now : Nat) :
    (rlGet store ip = none →
      checkRateLimit store ip now = (true, rlSet store ip ⟨1, now + RATE_LIMIT_WINDOW⟩)) ∧
      (∀ c r, rlGet store ip = some ⟨c, r⟩ → now > r →
        checkRateLimit store ip now = (true, rlSet store ip ⟨1, now + RATE_LIMIT_WINDOW⟩)) ∧
      (∀ c r, rlGet store ip = some ⟨c, r⟩ → now ≤ r → c < RATE_LIMIT_MAX →
        checkRateLimit store ip now = (true, rlSet store ip ⟨c + 1, r⟩)) ∧
      (∀ c r, rlGet store ip = some ⟨c, r⟩ → now ≤ r → RATE_LIMIT_MAX ≤ c →
        checkRateLimit store ip now = (false, store)) ∧
      (∀ (ts : List Nat) (t t11 : Nat), rlGet store ip = none → ts.length = 9 →
        (∀ u ∈ ts, u ≤ t + RATE_LIMIT_WINDOW) → t11 ≤ t + RATE_LIMIT_WINDOW →
        (checkRateLimitSeq ip (t :: ts) store).1 = List.replicate 10 true ∧
          (checkRateLimit (checkRateLimitSeq ip (t :: ts) store).2 ip t11).1 = false) ∧
      (∀ (env : String → PrimaryResult × FallbackResult) (usernames : List String)
          (st : MemStorage) (cnow : Nat), (checkRateLimit store ip now).1 = false →
        bulkCheckRoute env store ip now usernames st cnow =
          (.rateLimited "Rate limit exceeded. Please wait before making more requests.",
            store, st, 0)) := by
  refine ⟨?_, ?_, ?_, ?_, ?_, ?_⟩
  · intro h
    simp [checkRateLimit, h]
  · intro c r hget hnow
    simp only [checkRateLimit, hget]
    rw [if_pos hnow]
  · intro c r hget hnow hc
    simp only [checkRateLimit, hget]
    rw [if_neg (by omega), if_neg (by simpa using Nat.not_le.mpr hc)]
  · intro c r hget hnow hc
    simp only [checkRateLimit, hget]
    rw [if_neg (by omega), if_pos (by simpa using hc)]
  · intro ts t t11 hnone hlen hle ht11
    have h1 : checkRateLimit store ip t = (true, rlSet store ip ⟨1, t + RATE_LIMIT_WINDOW⟩) := by
      simp [checkRateLimit, hnone]
    have hget1 : rlGet (rlSet store ip ⟨1, t + RATE_LIMIT_WINDOW⟩) ip =
        some ⟨1, t + RATE_LIMIT_WINDOW⟩ := rlGet_rlSet store ip _
    obtain ⟨hfill1, hfill2⟩ := checkRateLimit_window_fill ip (t + RATE_LIMIT_WINDOW) ts
      (rlSet store ip ⟨1, t + RATE_LIMIT_WINDOW⟩) 1 hget1 hle (by rw [hlen]; rfl)
    constructor
    · simp only [checkRateLimitSeq, h1, hfill1, hlen]
      rfl
    · simp only [checkRateLimitSeq, h1]
      rw [hlen] at hfill2
      simp only [checkRateLimit, hfill2]
      rw [if_neg (by omega), if_pos (by simp [RATE_LIMIT_MAX])]
  · intro env usernames st cnow hfalse
    have h2 := checkRateLimit_false_store store ip now hfalse
    simp [bulkCheckRoute, hfalse, h2]

/-- C4 witness: the theorem's window scenario applied to a concrete
client — ten calls at time 0 are allowed, the 11th is refused. -/
theorem claim_C4_witness :
    (checkRateLimitSeq "1.2.3.4" (0 :: List.replicate 9 0) []).1 = List.replicate 10 true ∧
      (checkRateLimit (checkRateLimitSeq "1.2.3.4" (0 :: List.replicate 9 0) []).2
        "1.2.3.4" 0).1 = false := by
  exact (claim_C4_rate_limiter [] "1.2.3.4" 0).2.2.2.2.1 (List.replicate 9 0) 0 0
    rfl (by decide) (by decide) (by decide)

/-! ## Claim C5 -/

/-- C5 counterexample: when both the primary and the fallback endpoint
fail, the resolver's terminal error verdict carries the message
`"Could not verify username availability at this time"`, not the
message `"could not verify at this time"` quoted by the claim. -/
theorem claim_C5_message_counterexample :
    getRobloxUsernameDetails .httpError .failure =
        ⟨false, "error", some "Could not verify username availability at this time"⟩ ∧
      (getRobloxUsernameDetails .httpError .failure).message ≠
        some "could not verify at this time" := by
  exact ⟨rfl, by decide⟩

/-- C5 amended: the resolver is total and two-tier — exactly one
fallback attempt is made on any primary failure and none otherwise; on
primary failure the verdict is the fallback's; a failed fallback yields
`{isAvailable: false, status: "error", message: "Could not verify
username availability at this time"}`; a successful fallback yields
available for an empty result set and taken otherwise. -/
theorem claim_C5_two_tier_fallback (pr : PrimaryResult) (fb : FallbackResult) :
    (getRobloxUsernameDetailsCounted pr fb).2 = (if isPrimaryFailure pr then 1 else 0) ∧
      (isPrimaryFailure pr = true →
        getRobloxUsernameDetails pr fb = fallbackUsernameCheck fb) ∧
      fallbackUsernameCheck .failure =
        ⟨false, "error", some "Could not verify username availability at this time"⟩ ∧
      (∀ l : List String, fallbackUsernameCheck (.success (some l)) =
        if l.isEmpty then ⟨true, "available", none⟩
        else ⟨false, "taken", some "Username is already taken"⟩) := by
  have hfb : ∀ l : List String, fallbackUsernameCheck (.success (some l)) =
      if l.isEmpty then ⟨true, "available", none⟩
      else (⟨false, "taken", some "Username is already taken"⟩ : Verdict) := by
    intro l
    cases l <;> rfl
  cases pr with
  | code c msg =>
      refine ⟨?_, ?_, rfl, hfb⟩
      · have h : (getRobloxUsernameDetailsCounted (.code c msg) fb).2 = 0 := by
          simp only [getRobloxUsernameDetailsCounted]
          repeat' split
          all_goals rfl
        rw [h]
        simp [isPrimaryFailure]
      · intro h
        simp [isPrimaryFailure] at h
  | netError => exact ⟨rfl, fun _ => rfl, rfl, hfb⟩
  | httpError => exact ⟨rfl, fun _ => rfl, rfl, hfb⟩
  | nonJson => exact ⟨rfl, fun _ => rfl, rfl, hfb⟩
  | parseError => exact ⟨rfl, fun _ => rfl, rfl, hfb⟩
  | noCode => exact ⟨rfl, fun _ => rfl, rfl, hfb⟩

/-- C5 witness: the theorem applied at a concrete primary failure,
discharging its hypothesis. -/
theorem claim_C5_witness :
    getRobloxUsernameDetails .httpError (.success (some ["x"])) =
      fallbackUsernameCheck (.success (some ["x"])) := by
  exact (claim_C5_two_tier_fallback .httpError (.success (some ["x"]))).2.1 rfl

/-! ## Claim C6 -/

/-- C6: the primary-endpoint code switch maps 0 to available, 1 to
taken, 2 to censored, 10 to too_short, 11 to too_long, 12 to
invalid_characters and any other code to unknown; every non-zero code
yields `isAvailable = false`, and a (non-empty) message present in the
response body is carried into the verdict. -/
theorem claim_C6_code_mapping (c : Int) (msg : Option String) (fb : FallbackResult) :
    getRobloxUsernameDetails (.code 0 msg) fb = ⟨true, "available", none⟩ ∧
      getRobloxUsernameDetails (.code 1 msg) fb = ⟨false, "taken", msg⟩ ∧
      getRobloxUsernameDetails (.code 2 msg) fb =
        ⟨false, "censored", some (jsOr msg "Username contains inappropriate content")⟩ ∧
      getRobloxUsernameDetails (.code 10 msg) fb =
        ⟨false, "too_short", some (jsOr msg "Username is too short")⟩ ∧
      getRobloxUsernameDetails (.code 11 msg) fb =
        ⟨false, "too_long", some (jsOr msg "Username is too long")⟩ ∧
      getRobloxUsernameDetails (.code 12 msg) fb =
        ⟨false, "invalid_characters", some (jsOr msg "Username contains invalid characters")⟩ ∧
      (c ≠ 0 → c ≠ 1 → c ≠ 2 → c ≠ 10 → c ≠ 11 → c ≠ 12 →
        getRobloxUsernameDetails (.code c msg) fb =
          ⟨false, "unknown", some (jsOr msg "Unknown validation error")⟩) ∧
      (c ≠ 0 → (getRobloxUsernameDetails (.code c msg) fb).isAvailable = false) ∧
      (∀ m : String, m ≠ "" → c ≠ 0 →
        (getRobloxUsernameDetails (.code c (some m)) fb).message = some m) := by
  refine ⟨rfl, rfl, rfl, rfl, rfl, rfl, ?_, ?_, ?_⟩
  · intro h0 h1 h2 h10 h11 h12
    simp only [getRobloxUsernameDetails, getRobloxUsernameDetailsCounted]
    rw [if_neg h0, if_neg h1, if_neg h2, if_neg h10, if_neg h11, if_neg h12]
  · intro h0
    simp only [getRobloxUsernameDetails, getRobloxUsernameDetailsCounted]
    rw [if_neg h0]
    repeat' split
    all_goals rfl
  · intro m hm h0
    simp only [getRobloxUsernameDetails, getRobloxUsernameDetailsCounted]
    rw [if_neg h0]
    repeat' split
    all_goals simp [jsOr, hm]

/-- C6 witness: the theorem applied at a concrete unknown code with a
message, discharging its hypotheses. -/
theorem claim_C6_witness :
    (getRobloxUsernameDetails (.code 5 (some "m")) .failure).isAvailable = false ∧
      (getRobloxUsernameDetails (.code 5 (some "m")) .failure).message = some "m" := by
  exact ⟨(claim_C6_code_mapping 5 (some "m") .failure).2.2.2.2.2.2.2.1 (by decide),
    (claim_C6_code_mapping 5 (some "m") .failure).2.2.2.2.2.2.2.2 "m" (by decide) (by decide)⟩

/-! ## Claim C3 -/

/-- C3: for a bulk batch, the per-item entry appended on resolver
success is only `{username, isAvailable, timestamp}` — the timestamp
does equal the persisted record's `checkedAt`, but the verdict's
`status` and `message` are dropped (the loop goes through
`checkRobloxUsername`, which keeps only the boolean).  Concretely, with
the primary endpoint answering `{code: 2, message: "bad"}` (a censored
verdict), the bulk entry for `"abc"` carries no status field. -/
theorem claim_C3_bulk_entry_drops_status :
    (bulkCheck (fun _ => (.code 2 (some "bad"), .failure)) ["abc"] MemStorage.empty 0).1.results =
        [⟨"abc", some false, none, none, none, 0⟩] ∧
      (getRobloxUsernameDetails (.code 2 (some "bad")) .failure).status = "censored" ∧
      (getRobloxUsernameDetails (.code 2 (some "bad")) .failure).message = some "bad" ∧
      (bulkCheck (fun _ => (.code 2 (some "bad"), .failure)) ["abc"]
          MemStorage.empty 0).2.1.usernameChecks = [⟨1, "abc", false, 0⟩] := by
  exact ⟨by decide, by decide, by decide, by decide⟩

/-! ## Claim C7 -/

/-- C7: for a bulk batch of N usernames of which K fail validation, the
summary reports `total = N`, `errors = K`, `processed = N − K`, the
results list has length N and places the K invalid-format entries first
(in input order, each with `isAvailable` null and the error text),
followed by the validated usernames' outcomes in input order. -/
theorem claim_C7_bulk_summary (env : String → PrimaryResult × FallbackResult)
    (usernames : List String) (st : MemStorage) (now : Nat) :
    (bulkCheck env usernames st now).1.summary.total = usernames.length ∧
      (bulkCheck env usernames st now).1.summary.errors = (validationErrors usernames).length ∧
      (bulkCheck env usernames st now).1.summary.processed +
        (validationErrors usernames).length = usernames.length ∧
      (bulkCheck env usernames st now).1.summary.processed =
        usernames.length - (validationErrors usernames).length ∧
      (bulkCheck env usernames st now).1.results.length = usernames.length ∧
      (bulkCheck env usernames st now).1.results.map (fun e => e.username) =
        (usernames.filter fun u => !usernameValidationSchema u) ++
          (usernames.filter fun u => usernameValidationSchema u) ∧
      (∀ e ∈ (bulkCheck env usernames st now).1.results.take (validationErrors usernames).length,
        e.isAvailable = none ∧ e.error = some "Invalid username format") ∧
      (∀ e ∈ (bulkCheck env usernames st now).1.results.drop (validationErrors usernames).length,
        e.isAvailable = some (checkRobloxUsername (env e.username).1 (env e.username).2)) := by
  have hsum : (validatedUsernames usernames).length + (validationErrors usernames).length =
      usernames.length := by
    simp only [validatedUsernames, validationErrors, List.length_map]
    exact (List.length_eq_length_filter_add _).symm
  refine ⟨rfl, rfl, hsum, ?_, ?_, ?_, ?_, ?_⟩
  · show (validatedUsernames usernames).length =
      usernames.length - (validationErrors usernames).length
    omega
  · simp only [bulkCheck, List.length_append, List.length_map,
      processValidated_length]
    simp only [validationErrors, List.length_map] at hsum ⊢
    omega
  · simp only [bulkCheck, List.map_append, List.map_map]
    rw [processValidated_usernames]
    simp only [validationErrors, validatedUsernames, List.map_map]
    rw [show (((fun (e : BulkEntry) => e.username) ∘ invalidEntry now) ∘
        fun u => (u, "Invalid username format")) = fun u : String => u from rfl]
    simp
  · intro e he
    simp only [bulkCheck] at he
    rw [show (validationErrors usernames).length =
        ((validationErrors usernames).map (invalidEntry now)).length by simp,
      List.take_left] at he
    obtain ⟨p, hp, hpe⟩ := List.mem_map.mp he
    subst hpe
    simp only [validationErrors, List.mem_map] at hp
    obtain ⟨u, -, hu⟩ := hp
    subst hu
    exact ⟨rfl, rfl⟩
  · intro e he
    simp only [bulkCheck] at he
    rw [show (validationErrors usernames).length =
        ((validationErrors usernames).map (invalidEntry now)).length by simp,
      List.drop_left] at he
    exact processValidated_isAvailable env _ st now e he

/-- C7 witness: the theorem applied to a concrete batch of one invalid
and one valid username, discharging the membership hypotheses. -/
theorem claim_C7_witness :
    (⟨"ab", none, none, none, some "Invalid username format", 0⟩ : BulkEntry).isAvailable =
        none ∧
      (⟨"ab", none, none, none, some "Invalid username format", 0⟩ : BulkEntry).error =
        some "Invalid username format" := by
  exact (claim_C7_bulk_summary (fun _ => (.code 0 none, .failure)) ["ab", "good_name"]
    MemStorage.empty 0).2.2.2.2.2.2.1 _ (by decide)

/-! ## Claim C9 -/

/-- C9: a bulk batch persists exactly one CheckRecord per validated
username — carrying that username and the verdict's availability, so an
error verdict is persisted with `isAvailable = false` — makes exactly
one resolver invocation per validated username, and persists nothing
(and resolves nothing) for invalid-format entries. -/
theorem claim_C9_persistence (env : String → PrimaryResult × FallbackResult)
    (usernames : List String) (st : MemStorage) (now : Nat) :
    (bulkCheck env usernames st now).2.1.usernameChecks.map
        (fun c => (c.username, c.isAvailable)) =
      st.usernameChecks.map (fun c => (c.username, c.isAvailable)) ++
        (validatedUsernames usernames).map
          (fun u => (u, checkRobloxUsername (env u).1 (env u).2)) ∧
      (bulkCheck env usernames st now).2.1.usernameChecks.length =
        st.usernameChecks.length + (validatedUsernames usernames).length ∧
      (bulkCheck env usernames st now).2.2 = (validatedUsernames usernames).length ∧
      (∀ pr fb, (getRobloxUsernameDetails pr fb).status = "error" →
        checkRobloxUsername pr fb = false) := by
  have hmap := processValidated_records env (validatedUsernames usernames) st now
  refine ⟨hmap, ?_, ?_, ?_⟩
  · have := congrArg List.length hmap
    simpa using this
  · simp only [bulkCheck]
    exact processValidated_calls env _ st now
  · intro pr fb h
    cases pr with
    | code c msg =>
        revert h
        simp only [checkRobloxUsername, getRobloxUsernameDetails,
          getRobloxUsernameDetailsCounted]
        repeat' split
        all_goals simp
    | netError =>
        cases fb with
        | failure => rfl
        | success data =>
            cases data with
            | none => simp [getRobloxUsernameDetails, getRobloxUsernameDetailsCounted,
                fallbackUsernameCheck] at h
            | some l => cases l <;>
                simp [getRobloxUsernameDetails, getRobloxUsernameDetailsCounted,
                  fallbackUsernameCheck] at h
    | httpError =>
        cases fb with
        | failure => rfl
        | success data =>
            cases data with
            | none => simp [getRobloxUsernameDetails, getRobloxUsernameDetailsCounted,
                fallbackUsernameCheck] at h
            | some l => cases l <;>
                simp [getRobloxUsernameDetails, getRobloxUsernameDetailsCounted,
                  fallbackUsernameCheck] at h
    | nonJson =>
        cases fb with
        | failure => rfl
        | success data =>
            cases data with
            | none => simp [getRobloxUsernameDetails, getRobloxUsernameDetailsCounted,
                fallbackUsernameCheck] at h
            | some l => cases l <;>
                simp [getRobloxUsernameDetails, getRobloxUsernameDetailsCounted,
                  fallbackUsernameCheck] at h
    | parseError =>
        cases fb with
        | failure => rfl
        | success data =>
            cases data with
            | none => simp [getRobloxUsernameDetails, getRobloxUsernameDetailsCounted,
                fallbackUsernameCheck] at h
            | some l => cases l <;>
                simp [getRobloxUsernameDetails, getRobloxUsernameDetailsCounted,
                  fallbackUsernameCheck] at h
    | noCode =>
        cases fb with
        | failure => rfl
        | success data =>
            cases data with
            | none => simp [getRobloxUsernameDetails, getRobloxUsernameDetailsCounted,
                fallbackUsernameCheck] at h
            | some l => cases l <;>
                simp [getRobloxUsernameDetails, getRobloxUsernameDetailsCounted,
                  fallbackUsernameCheck] at h

/-- C9 witness: the theorem's error-verdict conjunct applied at a
concrete both-endpoints-fail behaviour, discharging its hypothesis. -/
theorem claim_C9_witness :
    checkRobloxUsername .httpError .failure = false := by
  exact (claim_C9_persistence (fun _ => (.httpError, .failure)) [] MemStorage.empty 0).2.2.2
    .httpError .failure rfl

end RblNameValidator
